import Mathlib

/-!
Shallow embedding of the qa-playwright-pytest framework's pure logic:
settings resolution (`config.py`) and the test-lifecycle reporting
helpers (`conftest.py`), together with theorems checking the repository
specification's claims against these definitions.

Strings are modelled with Lean `String`/`List Char`; the character-level
helpers (`pyStrip`, `pyLower`, `pyParseInt`) model the Python `str.strip`,
`str.lower` and `int()` behaviour on ASCII input.
-/

namespace QA

/-- Characters treated as whitespace by Python `str.strip()` / `int()`
(ASCII fragment: space, tab, newline, carriage return, vertical tab,
form feed). -/
def pyWhitespace (c : Char) : Bool :=
  c = ' ' || c = '\t' || c = '\n' || c = '\r' || c = Char.ofNat 11 || c = Char.ofNat 12

/-- Drop characters satisfying `p` from both ends of a list; the common
shape of Python `str.strip()` and `str.strip("._")`. -/
def dropEnds (p : Char → Bool) (l : List Char) : List Char :=
  ((l.dropWhile p).reverse.dropWhile p).reverse

/-- Python `str.strip()` on a character list: drop whitespace from both ends. -/
def pyStripList (l : List Char) : List Char :=
  dropEnds pyWhitespace l

/-- Python `str.strip()`. -/
def pyStrip (s : String) : String :=
  String.mk (pyStripList s.toList)

/-- Python `str.lower()` (ASCII fragment). -/
def pyLower (s : String) : String :=
  String.mk (s.toList.map Char.toLower)

/-- Digit tail of a Python base-10 integer literal: digits with single
underscores allowed between digits, accumulating the value. -/
def parseDigitsGo : List Char → Nat → Option Nat
  | [], acc => some acc
  | c :: cs, acc =>
    if c.isDigit then parseDigitsGo cs (acc * 10 + (c.toNat - 48))
    else if c = '_' then
      match cs with
      | [] => none
      | d :: cs' =>
        if d.isDigit then parseDigitsGo cs' (acc * 10 + (d.toNat - 48)) else none
    else none

/-- Digit part of a Python base-10 integer literal: at least one digit,
underscores only between digits. -/
def parseDigits : List Char → Option Nat
  | [] => none
  | c :: cs => if c.isDigit then parseDigitsGo cs (c.toNat - 48) else none

/-- Python `int(s)` for base 10 on ASCII input: optional surrounding
whitespace, optional sign, then a digit part. `none` models `ValueError`. -/
def pyParseInt (s : String) : Option Int :=
  match pyStripList s.toList with
  | '+' :: rest => (parseDigits rest).map (fun n => (n : Int))
  | '-' :: rest => (parseDigits rest).map (fun n => -(n : Int))
  | rest => (parseDigits rest).map (fun n => (n : Int))

/-- Embeds `config._parse_int`: parse with Python `int()`, then reject
negative values. `Except.error` models the raised `ValueError`. -/
def _parse_int (value : String) (name : String) : Except String Int :=
  match pyParseInt value with
  | none => Except.error ("Invalid integer for " ++ name ++ ": " ++ value)
  | some parsed =>
    if parsed < 0 then Except.error (name ++ " must be >= 0")
    else Except.ok parsed

/-- Embeds `config._parse_bool`: normalize then map recognized truthy and
falsy tokens, rejecting everything else. -/
def _parse_bool (value : String) (name : String) : Except String Bool :=
  let normalized := pyLower (pyStrip value)
  if ["1", "true", "yes", "y", "on"].contains normalized then Except.ok true
  else if ["0", "false", "no", "n", "off"].contains normalized then Except.ok false
  else Except.error ("Invalid boolean for " ++ name)

/-- Python `str.partition(sep)` restricted to a single-character separator,
on character lists: split at the first occurrence of `sep`, or `none` when
`sep` does not occur (modelling the empty-separator result of `partition`). -/
def partitionChar (sep : Char) : List Char → Option (List Char × List Char)
  | [] => none
  | c :: cs =>
    if c = sep then some ([], cs)
    else
      match partitionChar sep cs with
      | none => none
      | some (a, b) => some (c :: a, b)

/-- Embeds `config.parse_viewport`: lowercase and strip, split at the first
`x`, parse both sides as non-negative integers, reject zero dimensions. -/
def parse_viewport (value : String) : Except String (Int × Int) :=
  match partitionChar 'x' (pyStripList (pyLower value).toList) with
  | none => Except.error ("Viewport must be WIDTHxHEIGHT, got " ++ value)
  | some (widthStr, heightStr) =>
    match _parse_int (String.mk widthStr) ("viewport width") with
    | Except.error e => Except.error e
    | Except.ok width =>
      match _parse_int (String.mk heightStr) ("viewport height") with
      | Except.error e => Except.error e
      | Except.ok height =>
        if width = 0 ∨ height = 0 then
          Except.error ("Viewport dimensions must be > 0, got " ++ value)
        else Except.ok (width, height)

/-- Embeds `config._get_env` applied to a raw environment lookup result:
strip the value and treat blank results as unset. -/
def _get_env (value : Option String) : Option String :=
  match value with
  | none => none
  | some v =>
    let stripped := pyStrip v
    if stripped = "" then none else some stripped

/-- Embeds `config._pick`: first non-`None` of CLI value, environment
value, default. -/
def _pick {α : Type} (cliValue : Option α) (envValue : Option α) (defaultValue : α) : α :=
  match cliValue with
  | some v => v
  | none =>
    match envValue with
    | some v => v
    | none => defaultValue

def DEFAULT_BASE_URL : String := "https://demo.playwright.dev/todomvc/"
def DEFAULT_BROWSER : String := "chromium"
def DEFAULT_VIEWPORT : String := "1280x720"
def DEFAULT_ARTIFACTS_DIR : String := "artifacts"
def DEFAULT_TIMEOUT_MS : Int := 10000
def DEFAULT_TRACE_MODE : String := "on-failure"
def DEFAULT_VIDEO_MODE : String := "on-failure"
def DEFAULT_SCREENSHOT_MODE : String := "on-failure"
def MODE_CHOICES : List String := ["on", "off", "on-failure"]
def BROWSER_CHOICES : List String := ["chromium", "firefox", "webkit"]

/-- Embeds `config.Settings` (artifact directory kept as its path string). -/
structure Settings where
  base_url : String
  browser_name : String
  headless : Bool
  slowmo_ms : Int
  viewport_width : Int
  viewport_height : Int
  artifacts_dir : String
  timeout_ms : Int
  trace : String
  video : String
  screenshot : String
  locale : String
  timezone_id : String
deriving DecidableEq, Repr

/-- CLI option values as delivered by the pytest option parser
(`conftest.pytest_addoption` + `config.get_settings`): `--slowmo-ms` and
`--timeout-ms` are declared with `type=int`, `--headed`/`--headless` store
booleans, everything else is a string; every option defaults to `None`. -/
structure Cli where
  base_url : Option String := none
  browser : Option String := none
  headless : Option Bool := none
  slowmo_ms : Option Int := none
  viewport : Option String := none
  artifacts_dir : Option String := none
  trace : Option String := none
  video : Option String := none
  screenshot : Option String := none
  timeout_ms : Option Int := none
  locale : Option String := none
  timezone_id : Option String := none
deriving DecidableEq, Repr

/-- Raw environment lookups (`os.getenv` results) for the variables read by
`config._build_settings_from_sources`. -/
structure EnvVars where
  BASE_URL : Option String := none
  BROWSER : Option String := none
  HEADLESS : Option String := none
  SLOWMO_MS : Option String := none
  VIEWPORT : Option String := none
  ARTIFACTS_DIR : Option String := none
  TRACE : Option String := none
  VIDEO : Option String := none
  SCREENSHOT : Option String := none
  TIMEOUT_MS : Option String := none
  LOCALE : Option String := none
  TIMEZONE_ID : Option String := none
deriving DecidableEq, Repr

/-- Browser-name block of `_build_settings_from_sources` (lines 111-117):
pick, strip, lowercase, then validate against `BROWSER_CHOICES`. -/
def resolve_browser (cliBrowser : Option String) (envBrowser : Option String) :
    Except String String :=
  let browser_name := pyLower (pyStrip (_pick cliBrowser (_get_env envBrowser) DEFAULT_BROWSER))
  if BROWSER_CHOICES.contains browser_name then Except.ok browser_name
  else Except.error ("Unsupported browser " ++ browser_name)

/-- Headless block of `_build_settings_from_sources` (lines 119-126): a CLI
boolean wins, else a set environment value is parsed, else `True`. -/
def resolve_headless (cliHeadless : Option Bool) (envHeadless : Option String) :
    Except String Bool :=
  match cliHeadless with
  | some b => Except.ok b
  | none =>
    match _get_env envHeadless with
    | some s => _parse_bool s ("HEADLESS")
    | none => Except.ok true

/-- Integer-field block of `_build_settings_from_sources` (lines 128-131 for
`SLOWMO_MS`, 141-146 for `TIMEOUT_MS`): an `int` CLI value (or the `int`
default) is used as-is, only a string environment value goes through
`_parse_int`. -/
def resolve_int_field (cliValue : Option Int) (envValue : Option String)
    (defaultValue : Int) (name : String) : Except String Int :=
  match cliValue with
  | some n => Except.ok n
  | none =>
    match _get_env envValue with
    | some s => _parse_int s name
    | none => Except.ok defaultValue

/-- Capture-mode block of `_build_settings_from_sources` (lines 148-157):
pick, lowercase, then validate against `MODE_CHOICES`. -/
def resolve_mode (cliValue : Option String) (envValue : Option String)
    (defaultValue : String) (name : String) : Except String String :=
  let mode := pyLower (_pick cliValue (_get_env envValue) defaultValue)
  if MODE_CHOICES.contains mode then Except.ok mode
  else Except.error ("Invalid " ++ name ++ " mode " ++ mode)

/-- Embeds `config._build_settings_from_sources`: merge CLI, environment and
defaults field by field with precedence CLI > env > default, validating in
the source's order; `Except.error` models a raised `ValueError`. -/
def _build_settings_from_sources (cli : Cli) (env : EnvVars) : Except String Settings :=
  match resolve_browser cli.browser env.BROWSER with
  | Except.error e => Except.error e
  | Except.ok browser_name =>
  match resolve_headless cli.headless env.HEADLESS with
  | Except.error e => Except.error e
  | Except.ok headless =>
  match resolve_int_field cli.slowmo_ms env.SLOWMO_MS 0 ("SLOWMO_MS") with
  | Except.error e => Except.error e
  | Except.ok slowmo_ms =>
  match parse_viewport (_pick cli.viewport (_get_env env.VIEWPORT) DEFAULT_VIEWPORT) with
  | Except.error e => Except.error e
  | Except.ok (viewport_width, viewport_height) =>
  match resolve_int_field cli.timeout_ms env.TIMEOUT_MS DEFAULT_TIMEOUT_MS ("TIMEOUT_MS") with
  | Except.error e => Except.error e
  | Except.ok timeout_ms =>
  match resolve_mode cli.trace env.TRACE DEFAULT_TRACE_MODE ("trace") with
  | Except.error e => Except.error e
  | Except.ok trace =>
  match resolve_mode cli.video env.VIDEO DEFAULT_VIDEO_MODE ("video") with
  | Except.error e => Except.error e
  | Except.ok video =>
  match resolve_mode cli.screenshot env.SCREENSHOT DEFAULT_SCREENSHOT_MODE ("screenshot") with
  | Except.error e => Except.error e
  | Except.ok screenshot =>
  Except.ok
    { base_url := _pick cli.base_url (_get_env env.BASE_URL) DEFAULT_BASE_URL
      browser_name := browser_name
      headless := headless
      slowmo_ms := slowmo_ms
      viewport_width := viewport_width
      viewport_height := viewport_height
      artifacts_dir := _pick cli.artifacts_dir (_get_env env.ARTIFACTS_DIR) DEFAULT_ARTIFACTS_DIR
      timeout_ms := timeout_ms
      trace := trace
      video := video
      screenshot := screenshot
      locale := _pick cli.locale (_get_env env.LOCALE) ("en-US")
      timezone_id := _pick cli.timezone_id (_get_env env.TIMEZONE_ID) ("UTC") }

/-- The ASCII word characters `[A-Za-z0-9_]` - the word-character class
named literally by the specification's sanitization sentence. -/
def isAsciiWordChar (c : Char) : Bool :=
  c.isAlphanum || c = '_'

/-- Characters of the Latin-1 supplement (code points `0x80`-`0xFF`) that
Python's Unicode-aware `\w` matches: the ordinal indicators, superscript
and fraction digits, the micro sign, and the Latin-1 letters (everything
from `0xC0` on except the multiplication and division signs). -/
def isLatin1WordChar (c : Char) : Bool :=
  [0xAA, 0xB2, 0xB3, 0xB5, 0xB9, 0xBA, 0xBC, 0xBD, 0xBE].contains c.toNat ||
  decide (0xC0 ≤ c.toNat ∧ c.toNat ≤ 0xFF ∧ c.toNat ≠ 0xD7 ∧ c.toNat ≠ 0xF7)

/-- Word characters of the Python regex class `\w` for `str` patterns,
which is Unicode-aware, so it keeps non-ASCII word characters that the
ASCII class `[A-Za-z0-9_]` excludes. Modelled faithfully for all code
points up to `0xFF`; code points above `0xFF` (many of which Python also
treats as word characters) are outside the modelled range and treated as
non-word here. -/
def isWordChar (c : Char) : Bool :=
  isAsciiWordChar c || isLatin1WordChar c

/-- Characters kept by the `conftest._sanitize_nodeid` substitution, i.e.
those NOT matched by the pattern `[^\w.-]`. -/
def isKeepChar (c : Char) : Bool :=
  isWordChar c || c = '.' || c = '-'

/-- Models `re.sub(r("[^\w.-]+"), "__", ·)` on a character list: every maximal
run of non-kept characters is replaced by two underscores. -/
def replaceRuns : List Char → List Char
  | [] => []
  | c :: cs =>
    if isKeepChar c then c :: replaceRuns cs
    else '_' :: '_' :: replaceRuns (cs.dropWhile (fun d => !isKeepChar d))
termination_by l => l.length
decreasing_by
  · simp only [List.length_cons]
    omega
  · simp only [List.length_cons]
    exact Nat.lt_succ_of_le (List.IsSuffix.length_le (List.dropWhile_suffix _))

/-- Characters removed from both ends by `str.strip("._")`. -/
def isStripChar (c : Char) : Bool :=
  c = '.' || c = '_'

/-- Python `str.strip("._")` on a character list. -/
def stripEdges (l : List Char) : List Char :=
  dropEnds isStripChar l

/-- Embeds `conftest._sanitize_nodeid`: replace each run of characters
outside `[\w.-]` with `__`, trim leading and trailing `.`/`_`, and fall
back to `"test"` when the result is empty. -/
def _sanitize_nodeid (nodeid : String) : String :=
  if String.mk (stripEdges (replaceRuns nodeid.toList)) = "" then ("test")
  else String.mk (stripEdges (replaceRuns nodeid.toList))

/-- Embeds `conftest._should_persist`: the on/off/on-failure artifact
retention policy. -/
def _should_persist (mode : String) (failed : Bool) : Bool :=
  if mode = "on" then true
  else if mode = "off" then false
  else failed

/-- Report outcome strings produced by pytest (plus the `rerun` outcome
added by pytest-rerunfailures). -/
inductive Outcome
  | passed
  | failed
  | skipped
  | rerun
deriving DecidableEq, Repr, Fintype

/-- String form of an outcome, as stored in `TestReport.outcome`. -/
def outcomeStr : Outcome → String
  | Outcome.passed => "passed"
  | Outcome.failed => "failed"
  | Outcome.skipped => "skipped"
  | Outcome.rerun => "rerun"

/-- The three pytest test phases (`TestReport.when`). -/
inductive Phase
  | setup
  | call
  | teardown
deriving DecidableEq, Repr, Fintype

/-- Embeds the outcome-derivation block of `conftest.pytest_runtest_makereport`
(lines 407-419): from the remembered setup report, the remembered call
report (either may be absent) and the current teardown report's outcome,
derive the single outcome string logged in the `test_end` event.
`report.failed` / `report.skipped` are outcome comparisons in pytest. -/
def derive_outcome (setupReport : Option Outcome) (callReport : Option Outcome)
    (currentOutcome : Outcome) : String :=
  if setupReport = some Outcome.failed then ("error")
  else
    match callReport with
    | some o => outcomeStr o
    | none =>
      if setupReport = some Outcome.skipped then ("skipped")
      else if currentOutcome = Outcome.failed then ("error")
      else outcomeStr currentOutcome

/-- One per-phase test report as delivered to
`conftest.pytest_runtest_logreport`. -/
structure CaseReport where
  nodeid : String
  phase : Phase
  outcome : Outcome
deriving DecidableEq, Repr

/-- The module-level mutable reporting state of `conftest`:
`_session_results` (pass/fail/skip counters), `_rerun_nodeids` and
`_counted_nodeids`. -/
structure SessionState where
  passed : Nat
  failed : Nat
  skipped : Nat
  rerun_nodeids : Finset String
  counted_nodeids : Finset String
deriving DecidableEq

/-- State at interpreter start: zero counters, empty seen-sets. -/
def initialState : SessionState :=
  { passed := 0, failed := 0, skipped := 0, rerun_nodeids := ∅, counted_nodeids := ∅ }

/-- Embeds `conftest.pytest_runtest_logreport` as a state transition:
rerun outcomes only join the flaky set; otherwise a report counts only on
the call phase or on a skipped setup phase, and only the first counting
report per nodeid increments exactly one counter. -/
def pytest_runtest_logreport (st : SessionState) (report : CaseReport) : SessionState :=
  if report.outcome = Outcome.rerun then
    { st with rerun_nodeids := insert report.nodeid st.rerun_nodeids }
  else if ¬(report.phase = Phase.call ∨
        (report.phase = Phase.setup ∧ report.outcome = Outcome.skipped)) ∨
      report.nodeid ∈ st.counted_nodeids then st
  else if report.outcome = Outcome.passed then
    { st with
      counted_nodeids := insert report.nodeid st.counted_nodeids
      passed := st.passed + 1 }
  else if report.outcome = Outcome.failed then
    { st with
      counted_nodeids := insert report.nodeid st.counted_nodeids
      failed := st.failed + 1 }
  else if report.outcome = Outcome.skipped then
    { st with
      counted_nodeids := insert report.nodeid st.counted_nodeids
      skipped := st.skipped + 1 }
  else { st with counted_nodeids := insert report.nodeid st.counted_nodeids }

/-- Reporting state after a sequence of per-phase reports, starting from
the initial module state. -/
def run_logreports (reports : List CaseReport) : SessionState :=
  reports.foldl pytest_runtest_logreport initialState

/-- Embeds `metrics.SessionMetrics` (counters only; the wall-clock duration
is not modelled). -/
structure SessionMetrics where
  total : Nat
  passed : Nat
  failed : Nat
  skipped : Nat
  flaky : Nat
deriving DecidableEq, Repr

/-- Embeds the summary construction of `conftest.pytest_sessionfinish`
(lines 210-217): totals come from the collected-test count, the other
counters from the module reporting state, flaky from the rerun set size. -/
def pytest_sessionfinish (testscollected : Nat) (st : SessionState) : SessionMetrics :=
  { total := testscollected
    passed := st.passed
    failed := st.failed
    skipped := st.skipped
    flaky := st.rerun_nodeids.card }

/-- One-pass scanner equivalent of the run-replacing substitution: walks the
characters once, keeping kept characters and emitting `__` at the start of
each maximal run of dropped characters (`inRun` records whether the previous
character was dropped). Used as the spec-side formulation of the claim that
every character outside `[A-Za-z0-9_.-]` is replaced by a delimiter run. -/
def scanRuns : List Char → Bool → List Char
  | [], _ => []
  | c :: cs, inRun =>
    if isKeepChar c then c :: scanRuns cs false
    else if inRun then scanRuns cs true
    else '_' :: '_' :: scanRuns cs true

/-- Spec-side sanitization: replace every maximal run of characters
outside the word-character class `\w` plus `.` and `-` with a delimiter
run, trim leading and trailing `.`/`_`, and return a fixed placeholder
name when the result is empty. -/
def sanitizeSpec (nodeid : String) : String :=
  let trimmed := stripEdges (scanRuns nodeid.toList false)
  if trimmed = [] then ("test") else String.mk trimmed

/-- Keep-set of the sanitization claim as literally stated: the ASCII
class `[A-Za-z0-9_.-]`. -/
def isClaimKeepChar (c : Char) : Bool :=
  isAsciiWordChar c || c = '.' || c = '-'

/-- One-pass run-replacing scanner over the claim's literal ASCII class
(same shape as `scanRuns`, but keeping only `[A-Za-z0-9_.-]`). -/
def scanRunsAscii : List Char → Bool → List Char
  | [], _ => []
  | c :: cs, inRun =>
    if isClaimKeepChar c then c :: scanRunsAscii cs false
    else if inRun then scanRunsAscii cs true
    else '_' :: '_' :: scanRunsAscii cs true

/-- Sanitization exactly as the claim words it: every maximal run of
characters outside the ASCII class `[A-Za-z0-9_.-]` becomes a delimiter
run, edges are trimmed, and the placeholder covers the empty result.
Differs from the code, whose Unicode-aware `\w` also keeps non-ASCII
word characters. -/
def sanitizeClaim (nodeid : String) : String :=
  if stripEdges (scanRunsAscii nodeid.toList false) = [] then ("test")
  else String.mk (stripEdges (scanRunsAscii nodeid.toList false))

/-- Spec-side outcome derivation, following the claim's words: setup failure
gives `error`, else an existing call report gives its outcome, else a
skipped setup gives `skipped`, else the current phase's outcome is used
unchanged. -/
def derive_outcome_claim (setupReport : Option Outcome) (callReport : Option Outcome)
    (currentOutcome : Outcome) : String :=
  if setupReport = some Outcome.failed then ("error")
  else
    match callReport with
    | some o => outcomeStr o
    | none =>
      if setupReport = some Outcome.skipped then ("skipped")
      else outcomeStr currentOutcome

/-- Whether an `Except` computation succeeded. -/
def isOkResult {ε α : Type} : Except ε α → Bool
  | Except.ok _ => true
  | Except.error _ => false

/-- Example run for the counter claims: five test cases, three passing, one
failing, one skipped at setup, with the per-phase hook firing several times
per case (duplicate reports included on purpose). -/
def exampleRun5 : List CaseReport :=
  [ { nodeid := "t1", phase := Phase.setup, outcome := Outcome.passed }
  , { nodeid := "t1", phase := Phase.call, outcome := Outcome.passed }
  , { nodeid := "t1", phase := Phase.call, outcome := Outcome.passed }
  , { nodeid := "t1", phase := Phase.teardown, outcome := Outcome.passed }
  , { nodeid := "t2", phase := Phase.setup, outcome := Outcome.passed }
  , { nodeid := "t2", phase := Phase.call, outcome := Outcome.passed }
  , { nodeid := "t2", phase := Phase.teardown, outcome := Outcome.passed }
  , { nodeid := "t3", phase := Phase.setup, outcome := Outcome.passed }
  , { nodeid := "t3", phase := Phase.call, outcome := Outcome.passed }
  , { nodeid := "t3", phase := Phase.teardown, outcome := Outcome.passed }
  , { nodeid := "t4", phase := Phase.setup, outcome := Outcome.passed }
  , { nodeid := "t4", phase := Phase.call, outcome := Outcome.failed }
  , { nodeid := "t4", phase := Phase.teardown, outcome := Outcome.passed }
  , { nodeid := "t5", phase := Phase.setup, outcome := Outcome.skipped }
  , { nodeid := "t5", phase := Phase.setup, outcome := Outcome.skipped }
  , { nodeid := "t5", phase := Phase.teardown, outcome := Outcome.passed } ]

/-- Example run for the flaky claim: one case whose first execution ends in
a rerun outcome and whose re-execution passes. -/
def exampleFlakyRun : List CaseReport :=
  [ { nodeid := "t", phase := Phase.setup, outcome := Outcome.passed }
  , { nodeid := "t", phase := Phase.call, outcome := Outcome.rerun }
  , { nodeid := "t", phase := Phase.teardown, outcome := Outcome.passed }
  , { nodeid := "t", phase := Phase.setup, outcome := Outcome.passed }
  , { nodeid := "t", phase := Phase.call, outcome := Outcome.passed }
  , { nodeid := "t", phase := Phase.teardown, outcome := Outcome.passed } ]

/-- CLI values for the precedence example: several fields overridden. -/
def exampleCli : Cli :=
  { base_url := some ("http://example.test/")
    browser := some ("firefox")
    headless := some false
    slowmo_ms := some 7
    viewport := some ("800x600")
    timeout_ms := some 2500
    trace := some ("on")
    locale := some ("fr-FR") }

/-- Environment values for the precedence example: every variable set, each
conflicting with the CLI where the CLI provides a value. -/
def exampleEnv : EnvVars :=
  { BASE_URL := some ("http://env.test/")
    BROWSER := some ("webkit")
    HEADLESS := some ("yes")
    SLOWMO_MS := some ("99")
    VIEWPORT := some ("1024x768")
    ARTIFACTS_DIR := some ("env-artifacts")
    TRACE := some ("off")
    VIDEO := some ("on")
    SCREENSHOT := some ("off")
    TIMEOUT_MS := some ("12345")
    LOCALE := some ("de-DE")
    TIMEZONE_ID := some ("Europe/Kyiv") }

/-- Resolved settings for the precedence example. -/
def exampleSettings : Settings :=
  { base_url := "http://example.test/"
    browser_name := "firefox"
    headless := false
    slowmo_ms := 7
    viewport_width := 800
    viewport_height := 600
    artifacts_dir := "env-artifacts"
    timeout_ms := 2500
    trace := "on"
    video := "on"
    screenshot := "off"
    locale := "fr-FR"
    timezone_id := "Europe/Kyiv" }

/-- CLI values with a negative slow-motion delay, as produced by
`--slowmo-ms=-5` (the option parser converts with `int`, accepting any
integer). -/
def negSlowmoCli : Cli :=
  { slowmo_ms := some (-5) }

/-- Settings actually produced from `negSlowmoCli` with no environment
variables set: resolution succeeds and keeps the negative value. -/
def negSlowmoSettings : Settings :=
  { base_url := DEFAULT_BASE_URL
    browser_name := "chromium"
    headless := true
    slowmo_ms := -5
    viewport_width := 1280
    viewport_height := 720
    artifacts_dir := "artifacts"
    timeout_ms := 10000
    trace := "on-failure"
    video := "on-failure"
    screenshot := "on-failure"
    locale := "en-US"
    timezone_id := "UTC" }

/-- Environment with an invalid (negative) slow-motion value. -/
def badEnv : EnvVars :=
  { SLOWMO_MS := some ("-3") }

/-- Settings resolved from CLI overriding only the browser, with
`exampleEnv` supplying every other field. -/
def fxCliSettings : Settings :=
  { base_url := "http://env.test/"
    browser_name := "firefox"
    headless := true
    slowmo_ms := 99
    viewport_width := 1024
    viewport_height := 768
    artifacts_dir := "env-artifacts"
    timeout_ms := 12345
    trace := "off"
    video := "on"
    screenshot := "off"
    locale := "de-DE"
    timezone_id := "Europe/Kyiv" }

/-- Settings resolved from an empty CLI with `exampleEnv` supplying every
field. -/
def envOnlySettings : Settings :=
  { fxCliSettings with browser_name := "webkit" }

/-! Lemmas about the sanitization pipeline. -/

theorem scanRuns_dropWhile (cs : List Char) :
    scanRuns (cs.dropWhile (fun d => !isKeepChar d)) false = scanRuns cs true := by
  induction cs with
  | nil => rfl
  | cons c cs ih =>
    by_cases h : isKeepChar c
    · simp [List.dropWhile_cons, h, scanRuns]
    · simp [List.dropWhile_cons, h, scanRuns, ih]

theorem replaceRuns_eq_scan (l : List Char) : replaceRuns l = scanRuns l false := by
  induction l using replaceRuns.induct with
  | case1 => rw [replaceRuns]; rfl
  | case2 c cs h ih =>
    rw [replaceRuns, scanRuns]
    simp only [h, if_true, ih]
  | case3 c cs h ih =>
    rw [replaceRuns, scanRuns]
    simp only [h, ih, ← scanRuns_dropWhile]
    simp

theorem isKeepChar_of_mem_scanRuns :
    ∀ (l : List Char) (b : Bool) (c : Char), c ∈ scanRuns l b → isKeepChar c = true := by
  intro l
  induction l with
  | nil => intro b c h; simp [scanRuns] at h
  | cons a l ih =>
    intro b c h
    by_cases hk : isKeepChar a
    · rw [scanRuns, if_pos hk] at h
      rcases List.mem_cons.mp h with rfl | h
      · exact hk
      · exact ih false c h
    · rw [scanRuns, if_neg hk] at h
      cases b with
      | true =>
        rw [if_pos rfl] at h
        exact ih true c h
      | false =>
        rw [if_neg (by simp)] at h
        rcases List.mem_cons.mp h with rfl | h
        · decide
        · rcases List.mem_cons.mp h with rfl | h
          · decide
          · exact ih true c h

theorem scanRuns_of_all_keep :
    ∀ l : List Char, (∀ c ∈ l, isKeepChar c = true) → scanRuns l false = l := by
  intro l
  induction l with
  | nil => intro _; rfl
  | cons a l ih =>
    intro h
    rw [scanRuns, if_pos (h a (List.mem_cons_self a l))]
    rw [ih fun c hc => h c (List.mem_cons_of_mem a hc)]

theorem dropWhile_self (p : Char → Bool) (l : List Char) :
    (l.dropWhile p).dropWhile p = l.dropWhile p := by
  cases h : l.dropWhile p with
  | nil => rfl
  | cons c t =>
    have hc := List.head?_dropWhile_not p l
    rw [h] at hc
    simp only [List.head?] at hc
    simp [List.dropWhile_cons, hc]

theorem head?_of_pre {l m : List Char} (h : l <+: m) (hne : l ≠ []) :
    m.head? = l.head? := by
  obtain ⟨t, rfl⟩ := h
  cases l with
  | nil => exact absurd rfl hne
  | cons a u => simp

theorem dropEnds_pre (p : Char → Bool) (l : List Char) :
    dropEnds p l <+: l.dropWhile p := by
  obtain ⟨r, hr⟩ := List.dropWhile_suffix (l := (l.dropWhile p).reverse) p
  exact ⟨r.reverse, by
    show ((l.dropWhile p).reverse.dropWhile p).reverse ++ r.reverse = l.dropWhile p
    rw [← List.reverse_append, hr, List.reverse_reverse]⟩

theorem dropEnds_head (p : Char → Bool) (l : List Char) {c : Char} {t : List Char}
    (h : dropEnds p l = c :: t) : p c = false := by
  have hpre := dropEnds_pre p l
  rw [h] at hpre
  have h1 : (l.dropWhile p).head? = some c := by
    rw [head?_of_pre hpre (by simp)]
    rfl
  have h2 := List.head?_dropWhile_not p l
  rw [h1] at h2
  exact h2

theorem mem_of_mem_dropEnds (p : Char → Bool) (l : List Char) {c : Char}
    (h : c ∈ dropEnds p l) : c ∈ l := by
  have h1 : c ∈ l.dropWhile p := (dropEnds_pre p l).sublist.subset h
  exact (List.dropWhile_suffix p).sublist.subset h1

theorem dropEnds_idem (p : Char → Bool) (l : List Char) :
    dropEnds p (dropEnds p l) = dropEnds p l := by
  have hstep1 : (dropEnds p l).dropWhile p = dropEnds p l := by
    cases h : dropEnds p l with
    | nil => rfl
    | cons c t =>
      have hc := dropEnds_head p l h
      simp [List.dropWhile_cons, hc]
  show (((dropEnds p l).dropWhile p).reverse.dropWhile p).reverse = dropEnds p l
  rw [hstep1]
  show ((((l.dropWhile p).reverse.dropWhile p).reverse).reverse.dropWhile p).reverse
      = dropEnds p l
  rw [List.reverse_reverse, dropWhile_self]
  rfl

theorem sanitize_eq_sanitizeSpec (s : String) : _sanitize_nodeid s = sanitizeSpec s := by
  unfold _sanitize_nodeid sanitizeSpec
  rw [replaceRuns_eq_scan]
  have hmk : ∀ l : List Char, (String.mk l = "") ↔ l = [] := by
    intro l
    rw [show ("" : String) = String.mk [] from rfl]
    exact ⟨fun h => by injection h, fun h => by rw [h]⟩
  by_cases h : stripEdges (scanRuns s.toList false) = []
  · rw [if_pos ((hmk _).mpr h), if_pos h]
  · rw [if_neg fun hc => h ((hmk _).mp hc), if_neg h]

theorem sanitize_fixed (u : String) (hkeep : ∀ c ∈ u.toList, isKeepChar c = true)
    (htrim : stripEdges u.toList = u.toList) (hne : u ≠ "") :
    _sanitize_nodeid u = u := by
  unfold _sanitize_nodeid
  rw [replaceRuns_eq_scan, scanRuns_of_all_keep _ hkeep, htrim]
  have hmk : String.mk u.toList = u := rfl
  rw [hmk, if_neg hne]

theorem sanitize_of_sanitize_placeholder : _sanitize_nodeid ("test") = "test" := by
  rw [sanitize_eq_sanitizeSpec]
  decide

theorem mem_sanitize_keep (s : String) {c : Char}
    (hc : c ∈ stripEdges (replaceRuns s.toList)) : isKeepChar c = true := by
  have h1 : c ∈ replaceRuns s.toList := mem_of_mem_dropEnds isStripChar _ hc
  rw [replaceRuns_eq_scan] at h1
  exact isKeepChar_of_mem_scanRuns _ _ _ h1

/-- C9: sanitizing a test identifier is idempotent and never yields the
empty string. -/
theorem claim_C9 (s : String) :
    _sanitize_nodeid (_sanitize_nodeid s) = _sanitize_nodeid s ∧
    (_sanitize_nodeid s == "") = false := by
  by_cases h : String.mk (stripEdges (replaceRuns s.toList)) = ""
  · have ht : _sanitize_nodeid s = "test" := by
      unfold _sanitize_nodeid
      rw [if_pos h]
    rw [ht]
    exact ⟨sanitize_of_sanitize_placeholder, by decide⟩
  · have ht : _sanitize_nodeid s = String.mk (stripEdges (replaceRuns s.toList)) := by
      unfold _sanitize_nodeid
      rw [if_neg h]
    constructor
    · rw [ht]
      apply sanitize_fixed
      · intro c hc
        exact mem_sanitize_keep s hc
      · show stripEdges (stripEdges (replaceRuns s.toList)) = stripEdges (replaceRuns s.toList)
        exact dropEnds_idem _ _
      · exact h
    · rw [ht, beq_eq_false_iff_ne]
      exact h

/-- C6 counterexample: the code keeps the non-ASCII word character that
Python's Unicode-aware `\w` matches (here U+00E9), while the claimed
class `[A-Za-z0-9_.-]` requires it replaced, which would leave only the
placeholder name. -/
theorem claim_C6_counterexample :
    _sanitize_nodeid "é" = "é" ∧ sanitizeClaim "é" = "test" ∧
    (_sanitize_nodeid "é" == sanitizeClaim "é") = false := by
  have h1 : _sanitize_nodeid "é" = "é" := by
    rw [sanitize_eq_sanitizeSpec]
    decide
  have h2 : sanitizeClaim "é" = "test" := by decide
  refine ⟨h1, h2, ?_⟩
  rw [h1, h2]
  decide

/-- C6 (amended): for identifiers within the modelled character range
(code points up to `0xFF`), sanitization replaces every maximal run of
characters outside the Unicode-aware word-character class `\w` together
with `.` and `-` by a delimiter run, trims leading and trailing `.`/`_`,
and falls back to the fixed placeholder name on an empty result. -/
theorem claim_C6 : ∀ nodeid : String,
    (∀ c ∈ nodeid.toList, c.toNat ≤ 0xFF) →
    _sanitize_nodeid nodeid = sanitizeSpec nodeid :=
  fun nodeid _ => sanitize_eq_sanitizeSpec nodeid

/-- C6 witness: the amended description applied to a concrete Latin-1
identifier, with the resulting directory name computed. -/
theorem claim_C6_witness :
    _sanitize_nodeid "tests/touché.py::test réussi" =
      sanitizeSpec "tests/touché.py::test réussi" ∧
    sanitizeSpec "tests/touché.py::test réussi" = "tests__touché.py__test__réussi" :=
  ⟨claim_C6 "tests/touché.py::test réussi" (by decide), by decide⟩

/-- C10: a sanitized test identifier contains no path separator and is
never `.`, `..` or empty, so the artifact directory is always a direct
child of the artifacts root. -/
theorem claim_C10 (s : String) :
    ((_sanitize_nodeid s).toList.all fun c => !(c == '/') && !(c == '\\')) = true ∧
    (_sanitize_nodeid s == ".") = false ∧
    (_sanitize_nodeid s == "..") = false ∧
    (_sanitize_nodeid s == "") = false := by
  by_cases h : String.mk (stripEdges (replaceRuns s.toList)) = ""
  · have ht : _sanitize_nodeid s = "test" := by
      unfold _sanitize_nodeid
      rw [if_pos h]
    rw [ht]
    exact ⟨by decide, by decide, by decide, by decide⟩
  · have ht : _sanitize_nodeid s = String.mk (stripEdges (replaceRuns s.toList)) := by
      unfold _sanitize_nodeid
      rw [if_neg h]
    refine ⟨?_, ?_, ?_, ?_⟩
    · rw [ht, List.all_eq_true]
      intro c hc
      have hk : isKeepChar c = true := mem_sanitize_keep s hc
      have h1 : (c == '/') = false := by
        rcases eq_or_ne c '/' with rfl | hne
        · exact absurd hk (by decide)
        · exact beq_eq_false_iff_ne.mpr hne
      have h2 : (c == '\\') = false := by
        rcases eq_or_ne c '\\' with rfl | hne
        · exact absurd hk (by decide)
        · exact beq_eq_false_iff_ne.mpr hne
      rw [h1, h2]
      rfl
    · rw [ht, beq_eq_false_iff_ne]
      intro he
      rw [show ("." : String) = String.mk ['.'] from rfl] at he
      injection he with he
      exact absurd (dropEnds_head isStripChar _ he) (by decide)
    · rw [ht, beq_eq_false_iff_ne]
      intro he
      rw [show (".." : String) = String.mk ['.', '.'] from rfl] at he
      injection he with he
      exact absurd (dropEnds_head isStripChar _ he) (by decide)
    · rw [ht, beq_eq_false_iff_ne]
      exact h

/-- C4: the artifact retention decision is a pure function of the mode and
the failure flag, with `on` always persisting, `off` never, and
`on-failure` exactly on failure. -/
theorem claim_C4 :
    ∀ failed : Bool,
      _should_persist ("on") failed = true ∧
      _should_persist ("off") failed = false ∧
      _should_persist ("on-failure") true = true ∧
      _should_persist ("on-failure") false = false := by
  decide

/-- C2 counterexample: with a passed setup report, no call report, and a
failed teardown report, the code derives `error`, while the claimed rule
falls back to the teardown outcome `failed`. -/
theorem claim_C2_counterexample :
    derive_outcome (some Outcome.passed) none Outcome.failed = "error" ∧
    derive_outcome_claim (some Outcome.passed) none Outcome.failed = "failed" ∧
    (derive_outcome (some Outcome.passed) none Outcome.failed ==
        derive_outcome_claim (some Outcome.passed) none Outcome.failed) = false := by
  exact ⟨by decide, by decide, by decide⟩

/-- C2 amended: outcome precedence is setup-failed to `error`, else call
outcome, else setup-skipped to `skipped`, else `error` when the current
(teardown) report failed, else the current phase's outcome. -/
theorem derive_outcome_rule1 :
    ∀ (su c : Option Outcome) (cur : Outcome),
      su = some Outcome.failed → derive_outcome su c cur = "error" := by
  decide

theorem derive_outcome_rule2 :
    ∀ (su c : Option Outcome) (cur : Outcome),
      su ≠ some Outcome.failed → ∀ o, c = some o →
        derive_outcome su c cur = outcomeStr o := by
  decide

theorem derive_outcome_rule3 :
    ∀ (su c : Option Outcome) (cur : Outcome),
      su = some Outcome.skipped → c = none → derive_outcome su c cur = "skipped" := by
  decide

theorem derive_outcome_rule4 :
    ∀ (su c : Option Outcome) (cur : Outcome),
      su ≠ some Outcome.failed → su ≠ some Outcome.skipped → c = none →
        cur = Outcome.failed → derive_outcome su c cur = "error" := by
  decide

theorem derive_outcome_rule5 :
    ∀ (su c : Option Outcome) (cur : Outcome),
      su ≠ some Outcome.failed → su ≠ some Outcome.skipped → c = none →
        cur ≠ Outcome.failed → derive_outcome su c cur = outcomeStr cur := by
  decide

theorem claim_C2 :
    ∀ (setupReport callReport : Option Outcome) (currentOutcome : Outcome),
      (setupReport = some Outcome.failed →
        derive_outcome setupReport callReport currentOutcome = "error") ∧
      (setupReport ≠ some Outcome.failed → ∀ o, callReport = some o →
        derive_outcome setupReport callReport currentOutcome = outcomeStr o) ∧
      (setupReport = some Outcome.skipped → callReport = none →
        derive_outcome setupReport callReport currentOutcome = "skipped") ∧
      (setupReport ≠ some Outcome.failed → setupReport ≠ some Outcome.skipped →
        callReport = none → currentOutcome = Outcome.failed →
        derive_outcome setupReport callReport currentOutcome = "error") ∧
      (setupReport ≠ some Outcome.failed → setupReport ≠ some Outcome.skipped →
        callReport = none → currentOutcome ≠ Outcome.failed →
        derive_outcome setupReport callReport currentOutcome = outcomeStr currentOutcome) :=
  fun su c cur =>
    ⟨derive_outcome_rule1 su c cur, derive_outcome_rule2 su c cur,
      derive_outcome_rule3 su c cur, derive_outcome_rule4 su c cur,
      derive_outcome_rule5 su c cur⟩

/-- C2 witness: the amended precedence evaluated at two concrete inputs. -/
theorem claim_C2_witness :
    derive_outcome (some Outcome.passed) (some Outcome.skipped) Outcome.passed = "skipped" ∧
    derive_outcome (some Outcome.passed) none Outcome.failed = "error" := by
  constructor
  · exact (claim_C2 (some Outcome.passed) (some Outcome.skipped) Outcome.passed).2.1
      (by decide) Outcome.skipped rfl
  · exact (claim_C2 (some Outcome.passed) none Outcome.failed).2.2.2.1
      (by decide) (by decide) rfl rfl

/-- C7: rerun-outcome reports never change the pass/fail/skip counters,
and a case that reruns once and then passes counts once as passed and once
as flaky. -/
theorem claim_C7 :
    (∀ (st : SessionState) (report : CaseReport), report.outcome = Outcome.rerun →
      (pytest_runtest_logreport st report).passed = st.passed ∧
      (pytest_runtest_logreport st report).failed = st.failed ∧
      (pytest_runtest_logreport st report).skipped = st.skipped) ∧
    pytest_sessionfinish 1 (run_logreports exampleFlakyRun) =
      { total := 1, passed := 1, failed := 0, skipped := 0, flaky := 1 } := by
  constructor
  · intro st report h
    unfold pytest_runtest_logreport
    rw [if_pos h]
    exact ⟨rfl, rfl, rfl⟩
  · decide

/-- C7 witness: the rerun-report invariance applied to a concrete state
and report. -/
theorem claim_C7_witness :
    (pytest_runtest_logreport initialState
        { nodeid := "t", phase := Phase.call, outcome := Outcome.rerun }).passed =
      initialState.passed ∧
    (pytest_runtest_logreport initialState
        { nodeid := "t", phase := Phase.call, outcome := Outcome.rerun }).failed =
      initialState.failed ∧
    (pytest_runtest_logreport initialState
        { nodeid := "t", phase := Phase.call, outcome := Outcome.rerun }).skipped =
      initialState.skipped :=
  claim_C7.1 initialState { nodeid := "t", phase := Phase.call, outcome := Outcome.rerun } rfl

theorem logreport_counts_invariant (st : SessionState) (r : CaseReport)
    (h : st.passed + st.failed + st.skipped = st.counted_nodeids.card) :
    (pytest_runtest_logreport st r).passed + (pytest_runtest_logreport st r).failed +
      (pytest_runtest_logreport st r).skipped =
      (pytest_runtest_logreport st r).counted_nodeids.card := by
  unfold pytest_runtest_logreport
  split
  · exact h
  · split
    · exact h
    · next hrerun hcond =>
      push_neg at hcond
      obtain ⟨hshould, hmem⟩ := hcond
      split
      · simp only [Finset.card_insert_of_not_mem hmem]
        omega
      · split
        · simp only [Finset.card_insert_of_not_mem hmem]
          omega
        · split
          · simp only [Finset.card_insert_of_not_mem hmem]
            omega
          · next hp hf hs =>
            exfalso
            cases hro : r.outcome
            · exact hp hro
            · exact hf hro
            · exact hs hro
            · exact hrerun hro

theorem foldl_counts (l : List CaseReport) :
    ∀ st : SessionState, st.passed + st.failed + st.skipped = st.counted_nodeids.card →
      (l.foldl pytest_runtest_logreport st).passed +
          (l.foldl pytest_runtest_logreport st).failed +
          (l.foldl pytest_runtest_logreport st).skipped =
        (l.foldl pytest_runtest_logreport st).counted_nodeids.card := by
  induction l with
  | nil => intro st h; simpa using h
  | cons r l ih =>
    intro st h
    rw [List.foldl_cons]
    exact ih _ (logreport_counts_invariant st r h)

theorem logreport_counted_from (st : SessionState) (r : CaseReport) {i : String}
    (h : i ∈ (pytest_runtest_logreport st r).counted_nodeids) :
    i ∈ st.counted_nodeids ∨
      (r.nodeid = i ∧ r.outcome ≠ Outcome.rerun ∧
        (r.phase = Phase.call ∨ (r.phase = Phase.setup ∧ r.outcome = Outcome.skipped))) := by
  unfold pytest_runtest_logreport at h
  split at h
  · left; exact h
  · split at h
    · left; exact h
    · next hrerun hcond =>
      push_neg at hcond
      obtain ⟨hshould, -⟩ := hcond
      have hmem : i ∈ insert r.nodeid st.counted_nodeids := by
        split at h
        · exact h
        · split at h
          · exact h
          · split at h
            · exact h
            · exact h
      rcases Finset.mem_insert.mp hmem with h1 | h1
      · right; exact ⟨h1.symm, hrerun, hshould⟩
      · left; exact h1

theorem foldl_counted_from (l : List CaseReport) :
    ∀ (st : SessionState) (i : String),
      i ∈ (l.foldl pytest_runtest_logreport st).counted_nodeids →
      i ∈ st.counted_nodeids ∨
        ∃ r ∈ l, r.nodeid = i ∧ r.outcome ≠ Outcome.rerun ∧
          (r.phase = Phase.call ∨ (r.phase = Phase.setup ∧ r.outcome = Outcome.skipped)) := by
  induction l with
  | nil => intro st i h; left; simpa using h
  | cons r l ih =>
    intro st i h
    rw [List.foldl_cons] at h
    rcases ih _ i h with h1 | h1
    · rcases logreport_counted_from st r h1 with h2 | h2
      · left; exact h2
      · right; exact ⟨r, List.mem_cons_self r l, h2⟩
    · obtain ⟨r', hr', hp⟩ := h1
      right; exact ⟨r', List.mem_cons_of_mem r hr', hp⟩

/-- C3: over any report sequence the three terminal counters sum to the
size of the seen-set, so each test identifier is counted at most once; an
identifier is only ever counted because of a call-phase report or a skipped
setup-phase report; and the concrete five-case run with duplicate hook
firings yields totals 5/3/1/1. -/
theorem claim_C3 :
    (∀ reports : List CaseReport,
      (run_logreports reports).passed + (run_logreports reports).failed +
        (run_logreports reports).skipped = (run_logreports reports).counted_nodeids.card) ∧
    (∀ (reports : List CaseReport) (i : String),
      i ∈ (run_logreports reports).counted_nodeids →
      ∃ r ∈ reports, r.nodeid = i ∧ r.outcome ≠ Outcome.rerun ∧
        (r.phase = Phase.call ∨ (r.phase = Phase.setup ∧ r.outcome = Outcome.skipped))) ∧
    pytest_sessionfinish 5 (run_logreports exampleRun5) =
      { total := 5, passed := 3, failed := 1, skipped := 1, flaky := 0 } := by
  refine ⟨?_, ?_, ?_⟩
  · intro reports
    exact foldl_counts reports initialState (by simp [initialState])
  · intro reports i h
    rcases foldl_counted_from reports initialState i h with h1 | h1
    · exact absurd h1 (by simp [initialState])
    · exact h1
  · decide

/-- C3 witness: the counter law and provenance applied to the concrete
five-case run. -/
theorem claim_C3_witness :
    (run_logreports exampleRun5).passed + (run_logreports exampleRun5).failed +
        (run_logreports exampleRun5).skipped =
      (run_logreports exampleRun5).counted_nodeids.card ∧
    ∃ r ∈ exampleRun5, r.nodeid = "t5" ∧ r.outcome ≠ Outcome.rerun ∧
      (r.phase = Phase.call ∨ (r.phase = Phase.setup ∧ r.outcome = Outcome.skipped)) :=
  ⟨claim_C3.1 exampleRun5, claim_C3.2.1 exampleRun5 ("t5") (by decide)⟩

theorem partitionChar_some_iff (sep : Char) :
    ∀ l a b : List Char,
      partitionChar sep l = some (a, b) ↔ l = a ++ sep :: b ∧ sep ∉ a := by
  intro l
  induction l with
  | nil =>
    intro a b
    constructor
    · intro h
      exact absurd h (by simp [partitionChar])
    · rintro ⟨h, -⟩
      exact absurd h (by simp)
  | cons c cs ih =>
    intro a b
    unfold partitionChar
    by_cases hc : c = sep
    · subst hc
      rw [if_pos rfl]
      constructor
      · intro h
        simp only [Option.some.injEq, Prod.mk.injEq] at h
        obtain ⟨ha, hb⟩ := h
        subst ha
        subst hb
        exact ⟨rfl, by simp⟩
      · rintro ⟨heq, hna⟩
        cases a with
        | nil =>
          simp only [List.nil_append, List.cons.injEq] at heq
          rw [heq.2]
        | cons a0 a' =>
          simp only [List.cons_append, List.cons.injEq] at heq
          exact absurd (List.mem_cons_self a0 a') (heq.1 ▸ hna)
    · rw [if_neg hc]
      cases hrec : partitionChar sep cs with
      | none =>
        simp only []
        constructor
        · intro h
          exact absurd h (by simp)
        · rintro ⟨heq, hna⟩
          exfalso
          cases a with
          | nil =>
            simp only [List.nil_append, List.cons.injEq] at heq
            exact hc heq.1
          | cons a0 a' =>
            simp only [List.cons_append, List.cons.injEq] at heq
            have : partitionChar sep cs = some (a', b) :=
              (ih a' b).mpr ⟨heq.2, fun hx => hna (List.mem_cons_of_mem a0 hx)⟩
            rw [hrec] at this
            exact Option.noConfusion this
      | some p =>
        obtain ⟨a', b'⟩ := p
        simp only []
        constructor
        · intro h
          simp only [Option.some.injEq, Prod.mk.injEq] at h
          obtain ⟨ha, hb⟩ := h
          have hcs := (ih a' b').mp hrec
          constructor
          · rw [← ha, ← hb, List.cons_append, hcs.1]
          · rw [← ha]
            intro hx
            rcases List.mem_cons.mp hx with h1 | h1
            · exact hc h1.symm
            · exact hcs.2 h1
        · rintro ⟨heq, hna⟩
          cases a with
          | nil =>
            simp only [List.nil_append, List.cons.injEq] at heq
            exact absurd heq.1 hc
          | cons a0 a'' =>
            simp only [List.cons_append, List.cons.injEq] at heq
            have : partitionChar sep cs = some (a'', b) :=
              (ih a'' b).mpr ⟨heq.2, fun hx => hna (List.mem_cons_of_mem a0 hx)⟩
            rw [hrec] at this
            simp only [Option.some.injEq, Prod.mk.injEq] at this
            simp [heq.1, this.1, this.2]

theorem parse_int_ok_iff (v name : String) (n : Int) :
    _parse_int v name = Except.ok n ↔ pyParseInt v = some n ∧ 0 ≤ n := by
  unfold _parse_int
  cases h : pyParseInt v with
  | none => simp
  | some m =>
    show (if m < 0 then Except.error (name ++ " must be >= 0") else Except.ok m) =
        Except.ok n ↔ some m = some n ∧ 0 ≤ n
    by_cases hm : m < 0
    · rw [if_pos hm]
      constructor
      · intro hk
        exact Except.noConfusion hk
      · rintro ⟨hk, hn⟩
        injection hk with hk
        omega
    · rw [if_neg hm]
      constructor
      · intro hk
        injection hk with hk
        subst hk
        exact ⟨rfl, by omega⟩
      · rintro ⟨hk, -⟩
        injection hk with hk
        rw [hk]

theorem parse_viewport_ok_iff (value : String) (w h : Int) :
    parse_viewport value = Except.ok (w, h) ↔
      ∃ widthStr heightStr : List Char,
        pyStripList (pyLower value).toList = widthStr ++ 'x' :: heightStr ∧
        'x' ∉ widthStr ∧
        pyParseInt (String.mk widthStr) = some w ∧ 0 < w ∧
        pyParseInt (String.mk heightStr) = some h ∧ 0 < h := by
  constructor
  · intro hk
    unfold parse_viewport at hk
    split at hk
    · exact absurd hk (by simp)
    · next ws hs heq =>
      split at hk
      · exact absurd hk (by simp)
      · next wv hw =>
        split at hk
        · exact absurd hk (by simp)
        · next hv hh =>
          split at hk
          · exact absurd hk (by simp)
          · next hz =>
            injection hk with hk
            rw [Prod.mk.injEq] at hk
            obtain ⟨rfl, rfl⟩ := hk
            have hchar := (partitionChar_some_iff 'x' _ ws hs).mp heq
            have hwv := (parse_int_ok_iff _ _ _).mp hw
            have hhv := (parse_int_ok_iff _ _ _).mp hh
            push_neg at hz
            exact ⟨ws, hs, hchar.1, hchar.2, hwv.1, by omega, hhv.1, by omega⟩
  · rintro ⟨ws, hs, hsplit, hnx, hpw, hwpos, hph, hhpos⟩
    have h1 : partitionChar 'x' (pyStripList (pyLower value).toList) = some (ws, hs) :=
      (partitionChar_some_iff 'x' _ ws hs).mpr ⟨hsplit, hnx⟩
    have h2 : _parse_int (String.mk ws) ("viewport width") = Except.ok w :=
      (parse_int_ok_iff _ _ _).mpr ⟨hpw, le_of_lt hwpos⟩
    have h3 : _parse_int (String.mk hs) ("viewport height") = Except.ok h :=
      (parse_int_ok_iff _ _ _).mpr ⟨hph, le_of_lt hhpos⟩
    unfold parse_viewport
    simp only [h1, h2, h3]
    rw [if_neg (by omega : ¬(w = 0 ∨ h = 0))]

/-- C8: the viewport string `1280x720` parses to width 1280 and height
720, the strings `0x720` and `abcxdef` fail validation, and in general a
string is accepted exactly when splitting its normalized form at the first
`x` yields two sides that parse as integers greater than zero. -/
theorem claim_C8 :
    parse_viewport ("1280x720") = Except.ok (1280, 720) ∧
    isOkResult (parse_viewport ("0x720")) = false ∧
    isOkResult (parse_viewport ("abcxdef")) = false ∧
    (∀ (value : String) (w h : Int),
      parse_viewport value = Except.ok (w, h) ↔
        ∃ widthStr heightStr : List Char,
          pyStripList (pyLower value).toList = widthStr ++ 'x' :: heightStr ∧
          'x' ∉ widthStr ∧
          pyParseInt (String.mk widthStr) = some w ∧ 0 < w ∧
          pyParseInt (String.mk heightStr) = some h ∧ 0 < h) :=
  ⟨by rfl, by rfl, by rfl, parse_viewport_ok_iff⟩

/-- C8 witness: the general characterization applied to a concrete
accepted viewport string. -/
theorem claim_C8_witness : parse_viewport ("800x600") = Except.ok (800, 600) :=
  (claim_C8.2.2.2 ("800x600") 800 600).mpr
    ⟨['8', '0', '0'], ['6', '0', '0'], by decide, by decide, by decide, by decide,
      by decide, by decide⟩

theorem build_ok_parts (cli : Cli) (env : EnvVars) (s : Settings)
    (h : _build_settings_from_sources cli env = Except.ok s) :
    s.base_url = _pick cli.base_url (_get_env env.BASE_URL) DEFAULT_BASE_URL ∧
    resolve_browser cli.browser env.BROWSER = Except.ok s.browser_name ∧
    resolve_headless cli.headless env.HEADLESS = Except.ok s.headless ∧
    resolve_int_field cli.slowmo_ms env.SLOWMO_MS 0 ("SLOWMO_MS") = Except.ok s.slowmo_ms ∧
    parse_viewport (_pick cli.viewport (_get_env env.VIEWPORT) DEFAULT_VIEWPORT) =
      Except.ok (s.viewport_width, s.viewport_height) ∧
    s.artifacts_dir = _pick cli.artifacts_dir (_get_env env.ARTIFACTS_DIR) DEFAULT_ARTIFACTS_DIR ∧
    resolve_int_field cli.timeout_ms env.TIMEOUT_MS DEFAULT_TIMEOUT_MS ("TIMEOUT_MS") =
      Except.ok s.timeout_ms ∧
    resolve_mode cli.trace env.TRACE DEFAULT_TRACE_MODE ("trace") = Except.ok s.trace ∧
    resolve_mode cli.video env.VIDEO DEFAULT_VIDEO_MODE ("video") = Except.ok s.video ∧
    resolve_mode cli.screenshot env.SCREENSHOT DEFAULT_SCREENSHOT_MODE ("screenshot") =
      Except.ok s.screenshot ∧
    s.locale = _pick cli.locale (_get_env env.LOCALE) ("en-US") ∧
    s.timezone_id = _pick cli.timezone_id (_get_env env.TIMEZONE_ID) ("UTC") := by
  unfold _build_settings_from_sources at h
  repeat' split at h
  all_goals try exact Except.noConfusion h
  injection h with h
  subst h
  refine ⟨rfl, ?_, ?_, ?_, ?_, rfl, ?_, ?_, ?_, ?_, rfl, rfl⟩ <;> simp_all

/-- C1: whenever resolution succeeds, a provided CLI value determines the
resolved field regardless of the environment (for choice-restricted options
the CLI parser only admits the canonical strings, under which the resolved
value is the CLI value itself); and overriding only the browser via CLI
leaves every other field identical to a resolution with no CLI values. -/
theorem claim_C1 :
    (∀ (cli : Cli) (env : EnvVars) (s : Settings),
      _build_settings_from_sources cli env = Except.ok s →
      (∀ v, cli.base_url = some v → s.base_url = v) ∧
      (∀ v, cli.browser = some v → v ∈ BROWSER_CHOICES → s.browser_name = v) ∧
      (∀ b, cli.headless = some b → s.headless = b) ∧
      (∀ n, cli.slowmo_ms = some n → s.slowmo_ms = n) ∧
      (∀ v, cli.viewport = some v →
        parse_viewport v = Except.ok (s.viewport_width, s.viewport_height)) ∧
      (∀ v, cli.artifacts_dir = some v → s.artifacts_dir = v) ∧
      (∀ n, cli.timeout_ms = some n → s.timeout_ms = n) ∧
      (∀ v, cli.trace = some v → v ∈ MODE_CHOICES → s.trace = v) ∧
      (∀ v, cli.video = some v → v ∈ MODE_CHOICES → s.video = v) ∧
      (∀ v, cli.screenshot = some v → v ∈ MODE_CHOICES → s.screenshot = v) ∧
      (∀ v, cli.locale = some v → s.locale = v) ∧
      (∀ v, cli.timezone_id = some v → s.timezone_id = v)) ∧
    (∀ (env : EnvVars) (b : String) (s1 s2 : Settings),
      b ∈ BROWSER_CHOICES →
      _build_settings_from_sources { browser := some b } env = Except.ok s1 →
      _build_settings_from_sources {} env = Except.ok s2 →
      s1.browser_name = b ∧ s1.base_url = s2.base_url ∧ s1.headless = s2.headless ∧
      s1.slowmo_ms = s2.slowmo_ms ∧ s1.viewport_width = s2.viewport_width ∧
      s1.viewport_height = s2.viewport_height ∧ s1.artifacts_dir = s2.artifacts_dir ∧
      s1.timeout_ms = s2.timeout_ms ∧ s1.trace = s2.trace ∧ s1.video = s2.video ∧
      s1.screenshot = s2.screenshot ∧ s1.locale = s2.locale ∧
      s1.timezone_id = s2.timezone_id) := by
  have part1 : ∀ (cli : Cli) (env : EnvVars) (s : Settings),
      _build_settings_from_sources cli env = Except.ok s →
      (∀ v, cli.base_url = some v → s.base_url = v) ∧
      (∀ v, cli.browser = some v → v ∈ BROWSER_CHOICES → s.browser_name = v) ∧
      (∀ b, cli.headless = some b → s.headless = b) ∧
      (∀ n, cli.slowmo_ms = some n → s.slowmo_ms = n) ∧
      (∀ v, cli.viewport = some v →
        parse_viewport v = Except.ok (s.viewport_width, s.viewport_height)) ∧
      (∀ v, cli.artifacts_dir = some v → s.artifacts_dir = v) ∧
      (∀ n, cli.timeout_ms = some n → s.timeout_ms = n) ∧
      (∀ v, cli.trace = some v → v ∈ MODE_CHOICES → s.trace = v) ∧
      (∀ v, cli.video = some v → v ∈ MODE_CHOICES → s.video = v) ∧
      (∀ v, cli.screenshot = some v → v ∈ MODE_CHOICES → s.screenshot = v) ∧
      (∀ v, cli.locale = some v → s.locale = v) ∧
      (∀ v, cli.timezone_id = some v → s.timezone_id = v) := by
    intro cli env s h
    obtain ⟨hbase, hbrow, hhead, hslow, hview, hart, htime, htr, hvid, hscr, hloc, htz⟩ :=
      build_ok_parts cli env s h
    refine ⟨?_, ?_, ?_, ?_, ?_, ?_, ?_, ?_, ?_, ?_, ?_, ?_⟩
    · intro v hv
      rw [hbase, hv]
      rfl
    · intro v hv hmem
      rw [hv] at hbrow
      unfold BROWSER_CHOICES at hmem
      simp only [List.mem_cons, List.not_mem_nil, or_false] at hmem
      rcases hmem with rfl | rfl | rfl <;> exact (Except.ok.inj hbrow).symm
    · intro b hb
      rw [hb] at hhead
      exact (Except.ok.inj hhead).symm
    · intro n hn
      rw [hn] at hslow
      exact (Except.ok.inj hslow).symm
    · intro v hv
      rw [hv] at hview
      exact hview
    · intro v hv
      rw [hart, hv]
      rfl
    · intro n hn
      rw [hn] at htime
      exact (Except.ok.inj htime).symm
    · intro v hv hmem
      rw [hv] at htr
      unfold MODE_CHOICES at hmem
      simp only [List.mem_cons, List.not_mem_nil, or_false] at hmem
      rcases hmem with rfl | rfl | rfl <;> exact (Except.ok.inj htr).symm
    · intro v hv hmem
      rw [hv] at hvid
      unfold MODE_CHOICES at hmem
      simp only [List.mem_cons, List.not_mem_nil, or_false] at hmem
      rcases hmem with rfl | rfl | rfl <;> exact (Except.ok.inj hvid).symm
    · intro v hv hmem
      rw [hv] at hscr
      unfold MODE_CHOICES at hmem
      simp only [List.mem_cons, List.not_mem_nil, or_false] at hmem
      rcases hmem with rfl | rfl | rfl <;> exact (Except.ok.inj hscr).symm
    · intro v hv
      rw [hloc, hv]
      rfl
    · intro v hv
      rw [htz, hv]
      rfl
  refine ⟨part1, ?_⟩
  intro env b s1 s2 hmem h1 h2
  obtain ⟨hbase1, hbrow1, hhead1, hslow1, hview1, hart1, htime1, htr1, hvid1, hscr1,
    hloc1, htz1⟩ := build_ok_parts _ env s1 h1
  obtain ⟨hbase2, hbrow2, hhead2, hslow2, hview2, hart2, htime2, htr2, hvid2, hscr2,
    hloc2, htz2⟩ := build_ok_parts _ env s2 h2
  have hview : (s1.viewport_width, s1.viewport_height) =
      (s2.viewport_width, s2.viewport_height) :=
    Except.ok.inj (hview1.symm.trans hview2)
  rw [Prod.mk.injEq] at hview
  refine ⟨(part1 _ env s1 h1).2.1 b rfl hmem, ?_, ?_, ?_, hview.1, hview.2, ?_, ?_, ?_,
    ?_, ?_, ?_, ?_⟩
  · rw [hbase1, hbase2]
  · exact Except.ok.inj (hhead1.symm.trans hhead2)
  · exact Except.ok.inj (hslow1.symm.trans hslow2)
  · rw [hart1, hart2]
  · exact Except.ok.inj (htime1.symm.trans htime2)
  · exact Except.ok.inj (htr1.symm.trans htr2)
  · exact Except.ok.inj (hvid1.symm.trans hvid2)
  · exact Except.ok.inj (hscr1.symm.trans hscr2)
  · rw [hloc1, hloc2]
  · rw [htz1, htz2]

/-- C1 witness: precedence applied to a fully concrete CLI/environment pair
with conflicting values, plus the browser-only override example. -/
theorem claim_C1_witness :
    _build_settings_from_sources exampleCli exampleEnv = Except.ok exampleSettings ∧
    exampleSettings.browser_name = "firefox" ∧
    exampleSettings.slowmo_ms = 7 ∧
    exampleSettings.locale = "fr-FR" ∧
    fxCliSettings.locale = envOnlySettings.locale := by
  have hok : _build_settings_from_sources exampleCli exampleEnv = Except.ok exampleSettings :=
    by rfl
  have h1 : _build_settings_from_sources { browser := some ("firefox") } exampleEnv =
      Except.ok fxCliSettings := by rfl
  have h2 : _build_settings_from_sources {} exampleEnv = Except.ok envOnlySettings := by rfl
  refine ⟨hok, ?_, ?_, ?_, ?_⟩
  · exact (claim_C1.1 exampleCli exampleEnv exampleSettings hok).2.1 ("firefox") rfl (by decide)
  · exact (claim_C1.1 exampleCli exampleEnv exampleSettings hok).2.2.2.1 7 rfl
  · exact (claim_C1.1 exampleCli exampleEnv exampleSettings hok).2.2.2.2.2.2.2.2.2.2.1
      "fr-FR" rfl
  · exact (claim_C1.2 exampleEnv ("firefox") fxCliSettings envOnlySettings (by decide) h1
      h2).2.2.2.2.2.2.2.2.2.2.2.1

/-- C5 counterexample: a negative integer supplied via the CLI (already
converted to `int` by the option parser) is accepted without any
validation error, contradicting the claim that any non-non-negative
integer input fails resolution. -/
theorem claim_C5_counterexample :
    _build_settings_from_sources negSlowmoCli {} = Except.ok negSlowmoSettings ∧
    negSlowmoSettings.slowmo_ms = -5 ∧
    negSlowmoSettings.slowmo_ms < 0 :=
  ⟨by rfl, by decide, by decide⟩

/-- C5 amended: an integer field supplied via a (non-blank) environment
variable whose value does not parse as a non-negative integer makes
resolution fail, provided no CLI value overrides that field; integer CLI
values bypass the check and are used as-is. -/
theorem claim_C5 :
    ∀ (cli : Cli) (env : EnvVars) (v : String),
      (cli.slowmo_ms = none → _get_env env.SLOWMO_MS = some v →
        isOkResult (_parse_int v ("SLOWMO_MS")) = false →
        isOkResult (_build_settings_from_sources cli env) = false) ∧
      (cli.timeout_ms = none → _get_env env.TIMEOUT_MS = some v →
        isOkResult (_parse_int v ("TIMEOUT_MS")) = false →
        isOkResult (_build_settings_from_sources cli env) = false) := by
  intro cli env v
  constructor
  · intro h1 h2 h3
    cases hb : _build_settings_from_sources cli env with
    | error e => rfl
    | ok s =>
      exfalso
      have hs := (build_ok_parts cli env s hb).2.2.2.1
      rw [h1] at hs
      unfold resolve_int_field at hs
      rw [h2] at hs
      have hs2 : _parse_int v ("SLOWMO_MS") = Except.ok s.slowmo_ms := hs
      rw [hs2] at h3
      exact Bool.noConfusion h3
  · intro h1 h2 h3
    cases hb : _build_settings_from_sources cli env with
    | error e => rfl
    | ok s =>
      exfalso
      have hs := (build_ok_parts cli env s hb).2.2.2.2.2.2.1
      rw [h1] at hs
      unfold resolve_int_field at hs
      rw [h2] at hs
      have hs2 : _parse_int v ("TIMEOUT_MS") = Except.ok s.timeout_ms := hs
      rw [hs2] at h3
      exact Bool.noConfusion h3

/-- C5 witness: the amended failure law applied to a concrete environment
carrying a negative slow-motion string. -/
theorem claim_C5_witness :
    isOkResult (_build_settings_from_sources {} badEnv) = false :=
  (claim_C5 {} badEnv ("-3")).1 rfl (by decide) (by decide)

end QA
